import Mathlib

/-!
Shallow embedding of the account-history reconstruction core of the
`tdbank` Go package (`client.go`): the money parser, the per-column field
handlers, the handler registry, the balance extractor, and
`ParseAccountHistory` itself, together with theorems checking the
specification's claims against these definitions.

Modelling conventions:
  * `time.Time` values are modelled as `Int` instants (the zero value is
    `0`); `time.Time.Equal` is `Int` equality.  The external
    `dateparse.ParseLocal` collaborator is a parameter
    `pd : String → Option Int` of every definition that needs it.
  * Go `int64` values are `Int`; where the code can overflow (the running
    balance accumulator `balance += record.Credit - record.Debit`) the
    wrap-around is made explicit with `wrap64`.
  * Fallible operations return `Option`/`Except`; the error strings are the
    ones the Go code produces (the `strconv` parse error is abbreviated
    to "invalid syntax").
  * The browser page is reduced to the data the parsing code reads from it:
    the rows of the history table (header row first, each row the list of
    its `th, td` cell texts) and the texts of the elements matched by
    `AccountBalanceSelector`.  A cell read past the end of a row yields ""
    exactly as the ignored-error `value, _ := cells.At(j).Text()` does.
-/

namespace TDBank

/-- One line from an account history: Go struct `HistoryRecord`
(`Index int; Date time.Time; Type string; Description string;
Debit int64; Credit int64; Balance int64`).  The Go field `Type` is
spelled `Type'` because `Type` is a Lean keyword. -/
structure HistoryRecord where
  Index : Nat
  Date : Int
  Type' : String
  Description : String
  Debit : Int
  Credit : Int
  Balance : Int
deriving Repr, DecidableEq

/-- The Go zero value `HistoryRecord{}`. -/
def emptyRecord : HistoryRecord :=
  { Index := 0, Date := 0, Type' := "", Description := "",
    Debit := 0, Credit := 0, Balance := 0 }

/-- Go `unicode.IsSpace`, restricted to the Latin-1 characters it accepts
(`\t \n \v \f \r ' '` U+0085 U+00A0); the inputs the parser meets are
ASCII. -/
def isSpaceGo (c : Char) : Bool :=
  c = ' ' || c = '\t' || c = '\n' || c = '\x0b' || c = '\x0c' || c = '\r' ||
    c = '\x85' || c = '\xa0'

/-- Go `strings.TrimSpace`. -/
def trimSpace (s : String) : String :=
  String.mk (((s.data.dropWhile isSpaceGo).reverse.dropWhile isSpaceGo).reverse)

/-- The `strings.Map` call in `parseMoney`: drop every `$`, `,` and `.`. -/
def stripMoney (s : String) : String :=
  String.mk (s.data.filter fun c => !(c = '$' || c = ',' || c = '.'))

/-- Value of a digit string (used under an all-digits guard). -/
def digitsVal (cs : List Char) : Nat :=
  cs.foldl (fun a c => a * 10 + (c.toNat - 48)) 0

/-- Digit-string part of `strconv.ParseInt`: at least one character, all
ASCII digits. -/
def parseUnsigned (cs : List Char) : Option Nat :=
  if cs.isEmpty then none
  else if cs.all Char.isDigit then some (digitsVal cs) else none

/-- Go `strconv.ParseInt(s, 10, 64)`: optional sign, decimal digits,
signed 64-bit range check. -/
def parseInt64 (s : String) : Option Int :=
  let core : List Char → Int → Option Int := fun cs sign =>
    match parseUnsigned cs with
    | none => none
    | some n =>
      let v : Int := sign * Int.ofNat n
      if v < -(2 ^ 63) ∨ 2 ^ 63 - 1 < v then none else some v
  match s.data with
  | '+' :: t => core t 1
  | '-' :: t => core t (-1)
  | t => core t 1

/-- Go `parseMoney`: strip `$`, `,`, `.` and parse the rest as a base-10
signed 64-bit integer. -/
def parseMoney (s : String) : Option Int :=
  parseInt64 (stripMoney s)

/-- List-of-characters prefix test (helper for the substring test). -/
def startsWithL : List Char → List Char → Bool
  | [], _ => true
  | _ :: _, [] => false
  | c :: cs, d :: ds => c = d && startsWithL cs ds

/-- Substring occurrence test on character lists. -/
def hasSubstrL (pat : List Char) : List Char → Bool
  | [] => startsWithL pat []
  | c :: t => startsWithL pat (c :: t) || hasSubstrL pat t

/-- Go `strings.Contains(text, "Balance")`. -/
def containsBalance (s : String) : Bool :=
  hasSubstrL "Balance".data s.data

/-- Go `(*HistoryRecord).DateFromString`: trim, parse with the external
date parser `pd`; on failure the record is unchanged (the error is the
caller's to ignore). -/
def DateFromString (pd : String → Option Int) (record : HistoryRecord)
    (value : String) : HistoryRecord :=
  match pd (trimSpace value) with
  | none => record
  | some date => { record with Date := date }

/-- Go `(*HistoryRecord).TypeFromString`. -/
def TypeFromString (record : HistoryRecord) (value : String) : HistoryRecord :=
  { record with Type' := trimSpace value }

/-- Go `(*HistoryRecord).DescriptionFromString`. -/
def DescriptionFromString (record : HistoryRecord) (value : String) :
    HistoryRecord :=
  { record with Description := trimSpace value }

/-- Go `(*HistoryRecord).DebitFromString`: empty after trimming is a
no-op success; otherwise `parseMoney`, keeping the record unchanged on
error. -/
def DebitFromString (record : HistoryRecord) (value : String) : HistoryRecord :=
  if trimSpace value = "" then record
  else
    match parseMoney (trimSpace value) with
    | none => record
    | some debit => { record with Debit := debit }

/-- Go `(*HistoryRecord).CreditFromString`. -/
def CreditFromString (record : HistoryRecord) (value : String) : HistoryRecord :=
  if trimSpace value = "" then record
  else
    match parseMoney (trimSpace value) with
    | none => record
    | some credit => { record with Credit := credit }

/-- Go `(*HistoryRecord).BalanceFromString`. -/
def BalanceFromString (record : HistoryRecord) (value : String) : HistoryRecord :=
  if trimSpace value = "" then record
  else
    match parseMoney (trimSpace value) with
    | none => record
    | some balance => { record with Balance := balance }

/-- The Go package-level map `DefaultHandlers`, as an exact-match lookup. -/
def DefaultHandlers (pd : String → Option Int) (field : String) :
    Option (HistoryRecord → String → HistoryRecord) :=
  if field = "Date" then some (DateFromString pd)
  else if field = "Type" then some TypeFromString
  else if field = "Description" then some DescriptionFromString
  else if field = "Debit" then some DebitFromString
  else if field = "Credit" then some CreditFromString
  else if field = "Account Balance" then some BalanceFromString
  else none

/-- The data the parsing code reads from the browser page: the rows of the
history table (header first, each row its cell texts) and the texts of
the elements matched by `AccountBalanceSelector`. -/
structure Page where
  rows : List (List String)
  balanceTexts : List String

/-- Go `(*Client).ParseAccountBalance`: no matching element is an error;
otherwise the text of the last matching element goes through
`parseMoney`. -/
def ParseAccountBalance (page : Page) : Except String Int :=
  match page.balanceTexts.getLast? with
  | none => Except.error "Unable to find account balance in page"
  | some value =>
    match parseMoney value with
    | none => Except.error "invalid syntax"
    | some balance => Except.ok balance

/-- Signed 64-bit wrap-around, for the Go `int64` running-balance
accumulator. -/
def wrap64 (x : Int) : Int :=
  (x + 2 ^ 63) % 2 ^ 64 - 2 ^ 63

/-- The cell texts read for one row: `value, _ := cells.At(j).Text()` for
`j < m`, where reading past the end of the row yields "". -/
def cellsFor (m : Nat) (row : List String) : List String :=
  (List.range m).map fun j => row.getD j ""

/-- The inner loop of `ParseAccountHistory`: dispatch each
(header, cell text) pair through `DefaultHandlers`; a missing handler is
skipped, a handler error leaves the record as the handler left it. -/
def applyHandlers (pd : String → Option Int) :
    List (String × String) → HistoryRecord → HistoryRecord
  | [], record => record
  | (field, value) :: rest, record =>
    match DefaultHandlers pd field with
    | none => applyHandlers pd rest record
    | some method => applyHandlers pd rest (method record value)

/-- One data row of `ParseAccountHistory`: a fresh `HistoryRecord{}` run
through the handlers of the header's columns. -/
def parseRow (pd : String → Option Int) (fieldNames : List String)
    (row : List String) : HistoryRecord :=
  applyHandlers pd (fieldNames.zip (cellsFor fieldNames.length row)) emptyRecord

/-- The row loop of `ParseAccountHistory`, in source (page) order: build
each record, and when the table has no balance column assign the running
balance and step it by `balance += record.Credit - record.Debit` (Go
`int64` arithmetic, hence `wrap64`).  The Go code prepends each record to
`history`; here the source-order list is built and the caller reverses
it, which yields the same list. -/
def buildLoop (pd : String → Option Int) (hasBalance : Bool)
    (fieldNames : List String) :
    List (List String) → Int → List HistoryRecord
  | [], _ => []
  | row :: rest, balance =>
    let record := parseRow pd fieldNames row
    if hasBalance then
      record :: buildLoop pd hasBalance fieldNames rest balance
    else
      { record with Balance := balance } ::
        buildLoop pd hasBalance fieldNames rest
          (wrap64 (balance + record.Credit - record.Debit))

/-- The index-assignment pass of `ParseAccountHistory`: running counter
`index` (initially 0) and date cursor (initially the zero time). -/
def addIndicesAux (index : Nat) (date : Int) :
    List HistoryRecord → List HistoryRecord
  | [] => []
  | record :: rest =>
    if record.Date = date then
      { record with Index := index + 1 } :: addIndicesAux (index + 1) date rest
    else
      { record with Index := 1 } :: addIndicesAux 1 record.Date rest

/-- The index-assignment pass started from its initial state. -/
def addIndices (history : List HistoryRecord) : List HistoryRecord :=
  addIndicesAux 0 0 history

/-- The header texts: the cells of row 0 (`rows.At(0).All("th, td")`). -/
def fieldNamesOf (page : Page) : List String :=
  page.rows.headD []

/-- Whether some header cell contains the substring "Balance". -/
def hasBalanceCol (page : Page) : Bool :=
  (fieldNamesOf page).any containsBalance

/-- Go `(*Client).ParseAccountHistory`: fail when the table has no rows at
all; read the header; when no header contains "Balance" obtain a seed
balance from `ParseAccountBalance`, propagating its failure; run the row
loop over rows 1..n-1, reverse (the Go code prepends), and assign
indices. -/
def ParseAccountHistory (pd : String → Option Int) (page : Page) :
    Except String (List HistoryRecord) :=
  if page.rows.isEmpty then
    Except.error "No account history found in page"
  else
    match (if hasBalanceCol page then Except.ok 0 else ParseAccountBalance page) with
    | Except.error e => Except.error e
    | Except.ok balance =>
      Except.ok (addIndices
        ((buildLoop pd (hasBalanceCol page) (fieldNamesOf page)
            (page.rows.drop 1) balance).reverse))

/-- The records carried by a `ParseAccountHistory` result (a Go caller
receives `history, err`; on the error paths `history` is empty). -/
def outRecords (r : Except String (List HistoryRecord)) : List HistoryRecord :=
  match r with
  | Except.ok h => h
  | Except.error _ => []

/-- The parsed dates of the data rows, in source (page) order. -/
def sourceDates (pd : String → Option Int) (page : Page) : List Int :=
  (page.rows.drop 1).map fun row => (parseRow pd (fieldNamesOf page) row).Date

/-- Same calendar day, with instants counted in seconds and days as UTC
day numbers (claim vocabulary only; the code never computes this). -/
def sameCalendarDay (a b : Int) : Prop :=
  a / 86400 = b / 86400

instance (a b : Int) : Decidable (sameCalendarDay a b) :=
  inferInstanceAs (Decidable (a / 86400 = b / 86400))

/-- A date parser that recognizes nothing (pages whose tables carry no
date column). -/
def pdNone : String → Option Int :=
  fun _ => none

/-- A date parser recognizing the two tags "X" (instant 100) and "Y"
(instant 200); both instants fall on UTC day 0. -/
def pdT : String → Option Int :=
  fun s => if s = "X" then some 100 else if s = "Y" then some 200 else none

/-- A table with a `Credit` column and no balance column, over two data
rows (credits $1.00 then $0.00), with a balance widget showing $1.00. -/
def pageCredits : Page :=
  { rows := [["Credit"], ["1.00"], ["0.00"]], balanceTexts := ["1.00"] }

/-- A date-only table whose two data rows parse to instants 200 then 100:
source order is newest-first, both on the same calendar day. -/
def pageSameDay : Page :=
  { rows := [["Date"], ["Y"], ["X"]], balanceTexts := ["0"] }

/-- A date-only table whose single date cell fails to parse. -/
def pageBadDate : Page :=
  { rows := [["Date"], ["zzz"]], balanceTexts := ["0"] }

/-- A date-only table whose two data rows parse to instants 100 then 200:
source order is oldest-first. -/
def pageAscending : Page :=
  { rows := [["Date"], ["X"], ["Y"]], balanceTexts := ["0"] }

/-- A table consisting of a header row only (and the header contains
"Balance", so no seed is needed). -/
def pageHeaderOnly : Page :=
  { rows := [["Balance"]], balanceTexts := [] }

/-- A table with no rows at all. -/
def pageNoRows : Page :=
  { rows := [], balanceTexts := [] }

/-- A table without a balance column on a page without a balance widget. -/
def pageNoBalance : Page :=
  { rows := [["Date"]], balanceTexts := [] }

/-- A table whose single `Debit` cell carries a negative amount. -/
def pageNegDebit : Page :=
  { rows := [["Debit"], ["-1.00"]], balanceTexts := ["0"] }

/-- A table with `Debit` and `Credit` columns whose cells are blank after
trimming. -/
def pageBlankCells : Page :=
  { rows := [["Debit", "Credit"], ["", " "]], balanceTexts := ["0"] }

/-- The records `ParseAccountHistory pdNone pageCredits` produces. -/
def creditsRecords : List HistoryRecord :=
  [{ Index := 1, Date := 0, Type' := "", Description := "",
     Debit := 0, Credit := 0, Balance := 200 },
   { Index := 2, Date := 0, Type' := "", Description := "",
     Debit := 0, Credit := 100, Balance := 100 }]

/-- The records `ParseAccountHistory pdT pageSameDay` produces. -/
def sameDayRecords : List HistoryRecord :=
  [{ Index := 1, Date := 100, Type' := "", Description := "",
     Debit := 0, Credit := 0, Balance := 0 },
   { Index := 1, Date := 200, Type' := "", Description := "",
     Debit := 0, Credit := 0, Balance := 0 }]

/-- The records `ParseAccountHistory pdNone pageBlankCells` produces. -/
def blankRecords : List HistoryRecord :=
  [{ Index := 1, Date := 0, Type' := "", Description := "",
     Debit := 0, Credit := 0, Balance := 0 }]

/-- C2: `parseMoney` strips every `$`, `,` and `.` and parses the
remainder as a base-10 signed 64-bit integer; `parseMoney "$1,234.56"`
is 123456, `parseMoney "12.00"` is 1200, and `parseMoney ""` and
`parseMoney "abc"` both fail. -/
theorem parseMoney_spec :
    parseMoney "$1,234.56" = some 123456 ∧
    parseMoney "12.00" = some 1200 ∧
    parseMoney "" = none ∧
    parseMoney "abc" = none ∧
    stripMoney "$1,234.56" = "123456" ∧
    ∀ s : String, parseMoney s = parseInt64 (stripMoney s) :=
  ⟨by decide, by decide, by decide, by decide, by decide, fun _ => rfl⟩

/-- C10: the index pass groups records by exact equality of the stored
`Date` value (full-instant equality), not by calendar day: on
`pageSameDay` the two output records fall on the same calendar day but
have different instants and both get `Index` 1, and on `pageBadDate` the
record whose date cell failed to parse keeps the zero-value date (equal
to the initial sentinel cursor) and still gets `Index` 1. -/
theorem index_groups_by_exact_date :
    ((outRecords (ParseAccountHistory pdT pageSameDay)).map
        fun r => (r.Date, r.Index)) = [(100, 1), (200, 1)] ∧
    sameCalendarDay 100 200 ∧ (100 : Int) ≠ 200 ∧
    ((outRecords (ParseAccountHistory pdT pageBadDate)).map
        fun r => (r.Date, r.Index)) = [(0, 1)] ∧
    emptyRecord.Date = 0 := by
  refine ⟨by decide, by decide, by decide, by decide, rfl⟩

/-- C1 (counterexample): on `pageCredits` (no balance column, seed 100)
the output records violate the claimed forward recursion
`balance[i] = balance[i-1] + credit[i] - debit[i]` at `i = 1`, and the
seed is not the predecessor of `balance[0]` either (`balance[0]` is not
`seed + credit[0] - debit[0]`). -/
theorem balance_forward_recursion_fails :
    (outRecords (ParseAccountHistory pdNone pageCredits)).length = 2 ∧
    ¬ ((outRecords (ParseAccountHistory pdNone pageCredits)).getD 1 emptyRecord).Balance =
        ((outRecords (ParseAccountHistory pdNone pageCredits)).getD 0 emptyRecord).Balance +
          ((outRecords (ParseAccountHistory pdNone pageCredits)).getD 1 emptyRecord).Credit -
          ((outRecords (ParseAccountHistory pdNone pageCredits)).getD 1 emptyRecord).Debit ∧
    ParseAccountBalance pageCredits = Except.ok (100 : Int) ∧
    ¬ ((outRecords (ParseAccountHistory pdNone pageCredits)).getD 0 emptyRecord).Balance =
        100 + ((outRecords (ParseAccountHistory pdNone pageCredits)).getD 0 emptyRecord).Credit -
          ((outRecords (ParseAccountHistory pdNone pageCredits)).getD 0 emptyRecord).Debit := by
  refine ⟨by decide, by decide, rfl, by decide⟩

/-- C3 (counterexample): a header-only table does not fail: on
`pageHeaderOnly` the parse succeeds with zero records instead of
returning the EmptyHistory error. -/
theorem header_only_table_succeeds :
    ParseAccountHistory pdNone pageHeaderOnly = Except.ok [] :=
  rfl

/-- C3 (amended): only an entirely empty table (no rows at all, not even
a header) makes `ParseAccountHistory` fail with the EmptyHistory error
and return no records. -/
theorem empty_table_fails (pd : String → Option Int) (page : Page)
    (hempty : page.rows = []) :
    ParseAccountHistory pd page = Except.error "No account history found in page" := by
  unfold ParseAccountHistory
  simp [hempty]

/-- Witness for `empty_table_fails` at `pageNoRows`. -/
theorem empty_table_fails_witness :
    ParseAccountHistory pdNone pageNoRows =
      Except.error "No account history found in page" :=
  empty_table_fails pdNone pageNoRows rfl

/-- C5 (counterexample): the output is not non-decreasing by date for
every input: on `pageAscending` (source rows oldest-first) the output
dates are [200, 100]. -/
theorem output_not_always_sorted :
    ((outRecords (ParseAccountHistory pdT pageAscending)).map
        HistoryRecord.Date) = [200, 100] ∧
    ¬ List.Chain' (fun a b : Int => a ≤ b)
        ((outRecords (ParseAccountHistory pdT pageAscending)).map
          HistoryRecord.Date) := by
  have h1 : ((outRecords (ParseAccountHistory pdT pageAscending)).map
      HistoryRecord.Date) = [200, 100] := by decide
  refine ⟨h1, ?_⟩
  rw [h1]
  simp [List.chain'_cons]

/-- C9 (counterexample): `Debit` is not always non-negative: on
`pageNegDebit` the produced record has `Debit = -100`. -/
theorem negative_debit_possible :
    (outRecords (ParseAccountHistory pdNone pageNegDebit)).length = 1 ∧
    ((outRecords (ParseAccountHistory pdNone pageNegDebit)).getD 0 emptyRecord).Debit
      = -100 ∧
    ¬ 0 ≤ ((outRecords (ParseAccountHistory pdNone pageNegDebit)).getD 0
        emptyRecord).Debit := by
  refine ⟨by decide, by decide, by decide⟩

theorem addIndicesAux_cons (n : Nat) (d : Int) (r : HistoryRecord)
    (rs : List HistoryRecord) :
    addIndicesAux n d (r :: rs) =
      { r with Index := if r.Date = d then n + 1 else 1 } ::
        addIndicesAux (if r.Date = d then n + 1 else 1) r.Date rs := by
  by_cases h : r.Date = d
  · simp [addIndicesAux, h]
  · simp [addIndicesAux, h]

theorem addIndicesAux_length (l : List HistoryRecord) :
    ∀ (n : Nat) (d : Int), (addIndicesAux n d l).length = l.length := by
  induction l with
  | nil => intro n d; rfl
  | cons r rs ih =>
    intro n d
    rw [addIndicesAux_cons]
    simp [ih]

theorem addIndicesAux_map {α : Type} (f : HistoryRecord → α)
    (hf : ∀ (r : HistoryRecord) (k : Nat), f { r with Index := k } = f r) :
    ∀ (l : List HistoryRecord) (n : Nat) (d : Int),
      (addIndicesAux n d l).map f = l.map f := by
  intro l
  induction l with
  | nil => intro n d; rfl
  | cons r rs ih =>
    intro n d
    rw [addIndicesAux_cons]
    simp [hf, ih]

theorem addIndices_head_index (l : List HistoryRecord) :
    ∀ r ∈ (addIndices l).head?, r.Index = 1 := by
  cases l with
  | nil => intro r hr; simp [addIndices, addIndicesAux] at hr
  | cons a rs =>
    intro r hr
    rw [addIndices, addIndicesAux_cons] at hr
    simp at hr
    by_cases h : a.Date = 0 <;> simp [← hr, h]

theorem addIndicesAux_law :
    ∀ (l : List HistoryRecord) (n : Nat) (d : Int) (i : Nat),
      i + 1 < (addIndicesAux n d l).length →
      ((addIndicesAux n d l).getD (i + 1) emptyRecord).Index =
        (if ((addIndicesAux n d l).getD (i + 1) emptyRecord).Date =
            ((addIndicesAux n d l).getD i emptyRecord).Date
         then ((addIndicesAux n d l).getD i emptyRecord).Index + 1 else 1) := by
  intro l
  induction l with
  | nil => intro n d i h; simp [addIndicesAux] at h
  | cons r rs ih =>
    intro n d i h
    rw [addIndicesAux_cons] at h ⊢
    cases i with
    | zero =>
      cases rs with
      | nil => simp [addIndicesAux] at h
      | cons r2 rs2 =>
        rw [addIndicesAux_cons]
        simp [List.getD_cons_zero, List.getD_cons_succ]
    | succ j =>
      simp only [List.getD_cons_succ]
      exact ih _ _ j (by simpa using h)

theorem buildLoop_length (pd : String → Option Int) (hb : Bool)
    (fn : List String) :
    ∀ (rows : List (List String)) (b : Int),
      (buildLoop pd hb fn rows b).length = rows.length := by
  intro rows
  induction rows with
  | nil => intro b; rfl
  | cons row rest ih =>
    intro b
    cases hb <;> simp [buildLoop, ih]

theorem buildLoop_map_date (pd : String → Option Int) (hb : Bool)
    (fn : List String) :
    ∀ (rows : List (List String)) (b : Int),
      (buildLoop pd hb fn rows b).map HistoryRecord.Date =
        rows.map fun row => (parseRow pd fn row).Date := by
  intro rows
  induction rows with
  | nil => intro b; rfl
  | cons row rest ih =>
    intro b
    cases hb <;> simp [buildLoop, ih]

theorem buildLoop_head_balance (pd : String → Option Int) (fn : List String) :
    ∀ (rows : List (List String)) (b : Int) (r : HistoryRecord),
      (buildLoop pd false fn rows b).head? = some r → r.Balance = b := by
  intro rows b r h
  cases rows with
  | nil => simp [buildLoop] at h
  | cons row rest =>
    simp [buildLoop] at h
    simp [← h]

theorem buildLoop_chain (pd : String → Option Int) (fn : List String) :
    ∀ (rows : List (List String)) (b : Int),
      List.Chain' (fun a c => c.Balance = wrap64 (a.Balance + a.Credit - a.Debit))
        (buildLoop pd false fn rows b) := by
  intro rows
  induction rows with
  | nil => intro b; simp [buildLoop]
  | cons row rest ih =>
    intro b
    simp only [buildLoop, if_neg (by decide : ¬ false = true)]
    refine List.chain'_cons'.mpr ⟨?_, ih _⟩
    intro y hy
    have hbal := buildLoop_head_balance pd fn rest _ y hy
    simp [hbal]

theorem buildLoop_getD_dc (pd : String → Option Int) (hb : Bool)
    (fn : List String) :
    ∀ (rows : List (List String)) (b : Int) (k : Nat), k < rows.length →
      ((buildLoop pd hb fn rows b).getD k emptyRecord).Debit =
        (parseRow pd fn (rows.getD k [])).Debit ∧
      ((buildLoop pd hb fn rows b).getD k emptyRecord).Credit =
        (parseRow pd fn (rows.getD k [])).Credit := by
  intro rows
  induction rows with
  | nil => intro b k hk; simp at hk
  | cons row rest ih =>
    intro b k hk
    cases hb with
    | false =>
      cases k with
      | zero => simp [buildLoop]
      | succ j =>
        simp only [buildLoop, if_neg (by decide : ¬ false = true),
          List.getD_cons_succ]
        exact ih _ j (by simpa using hk)
    | true =>
      cases k with
      | zero => simp [buildLoop]
      | succ j =>
        simp only [buildLoop, if_true, eq_self_iff_true, List.getD_cons_succ]
        exact ih _ j (by simpa using hk)

theorem addIndicesAux_getD_dc :
    ∀ (l : List HistoryRecord) (n : Nat) (d : Int) (i : Nat),
      ((addIndicesAux n d l).getD i emptyRecord).Debit =
        (l.getD i emptyRecord).Debit ∧
      ((addIndicesAux n d l).getD i emptyRecord).Credit =
        (l.getD i emptyRecord).Credit := by
  intro l
  induction l with
  | nil => intro n d i; exact ⟨rfl, rfl⟩
  | cons r rs ih =>
    intro n d i
    rw [addIndicesAux_cons]
    cases i with
    | zero => simp [List.getD_cons_zero]
    | succ j =>
      simp only [List.getD_cons_succ]
      exact ih _ r.Date j

theorem addIndices_getD_dc (l : List HistoryRecord) (i : Nat) :
    ((addIndices l).getD i emptyRecord).Debit = (l.getD i emptyRecord).Debit ∧
    ((addIndices l).getD i emptyRecord).Credit =
      (l.getD i emptyRecord).Credit :=
  addIndicesAux_getD_dc l 0 0 i

theorem getD_reverse_emptyRecord (l : List HistoryRecord) (i : Nat)
    (hi : i < l.length) :
    l.reverse.getD i emptyRecord = l.getD (l.length - 1 - i) emptyRecord := by
  rw [List.getD_eq_getElem _ _ (by simpa using hi),
    List.getD_eq_getElem _ _ (by omega), List.getElem_reverse]

theorem ParseAccountHistory_ok (pd : String → Option Int) (page : Page)
    (h : List HistoryRecord)
    (hok : ParseAccountHistory pd page = Except.ok h) :
    page.rows ≠ [] ∧
    ∃ balance : Int,
      (if hasBalanceCol page then Except.ok 0 else ParseAccountBalance page) =
        Except.ok balance ∧
      h = addIndices ((buildLoop pd (hasBalanceCol page) (fieldNamesOf page)
            (page.rows.drop 1) balance).reverse) := by
  unfold ParseAccountHistory at hok
  by_cases he : page.rows.isEmpty
  · rw [if_pos he] at hok
    exact absurd hok (by simp)
  · rw [if_neg he] at hok
    refine ⟨by simpa [List.isEmpty_iff] using he, ?_⟩
    cases hseed : (if hasBalanceCol page then Except.ok (0 : Int)
        else ParseAccountBalance page) with
    | error e =>
      rw [hseed] at hok
      exact absurd hok (by simp)
    | ok b =>
      rw [hseed] at hok
      exact ⟨b, rfl, (Except.ok.inj hok).symm⟩

/-- C4: when no header cell contains "Balance" and the balance extractor
fails (for instance because zero balance elements match), the failure is
propagated: `ParseAccountHistory` returns that very error, carrying no
records. -/
theorem no_balance_seed_propagates (pd : String → Option Int) (page : Page)
    (e : String)
    (hne : page.rows ≠ [])
    (hnb : hasBalanceCol page = false)
    (hbe : ParseAccountBalance page = Except.error e) :
    ParseAccountHistory pd page = Except.error e := by
  unfold ParseAccountHistory
  rw [if_neg (by simpa [List.isEmpty_iff] using hne)]
  rw [hnb]
  simp [hbe]

/-- Witness for `no_balance_seed_propagates` at `pageNoBalance`. -/
theorem no_balance_seed_propagates_witness :
    ParseAccountHistory pdNone pageNoBalance =
      Except.error "Unable to find account balance in page" :=
  no_balance_seed_propagates pdNone pageNoBalance
    "Unable to find account balance in page"
    (by decide) (by decide) rfl

/-- C6: in a successful `ParseAccountHistory` output the first record has
`Index` 1, and each later record's `Index` is its predecessor's plus one
when their `Date`s are equal and 1 otherwise — so within any maximal run
of equal dates the indices are exactly 1, 2, 3, … and the first record
of a new date restarts at 1. -/
theorem index_law (pd : String → Option Int) (page : Page)
    (h : List HistoryRecord)
    (hok : ParseAccountHistory pd page = Except.ok h) :
    (∀ r ∈ h.head?, r.Index = 1) ∧
    ∀ i : Nat, i + 1 < h.length →
      (h.getD (i + 1) emptyRecord).Index =
        (if (h.getD (i + 1) emptyRecord).Date = (h.getD i emptyRecord).Date
         then (h.getD i emptyRecord).Index + 1 else 1) := by
  obtain ⟨-, b, -, hh⟩ := ParseAccountHistory_ok pd page h hok
  subst hh
  refine ⟨addIndices_head_index _, fun i hi => ?_⟩
  exact addIndicesAux_law _ 0 0 i hi

/-- Witness for `index_law` at `pageCredits`. -/
theorem index_law_witness :
    (∀ r ∈ creditsRecords.head?, r.Index = 1) ∧
    ∀ i : Nat, i + 1 < creditsRecords.length →
      (creditsRecords.getD (i + 1) emptyRecord).Index =
        (if (creditsRecords.getD (i + 1) emptyRecord).Date =
            (creditsRecords.getD i emptyRecord).Date
         then (creditsRecords.getD i emptyRecord).Index + 1 else 1) :=
  index_law pdNone pageCredits creditsRecords rfl

/-- C7: whenever `ParseAccountHistory` succeeds, it returns exactly one
record per input data row (header row excluded), whatever the cells
contain and whether or not every header has a registered handler. -/
theorem row_count_law (pd : String → Option Int) (page : Page)
    (h : List HistoryRecord)
    (hok : ParseAccountHistory pd page = Except.ok h) :
    h.length = (page.rows.drop 1).length := by
  obtain ⟨-, b, -, hh⟩ := ParseAccountHistory_ok pd page h hok
  subst hh
  unfold addIndices
  rw [addIndicesAux_length, List.length_reverse, buildLoop_length]

/-- Witness for `row_count_law` at `pageSameDay`. -/
theorem row_count_law_witness :
    sameDayRecords.length = (pageSameDay.rows.drop 1).length :=
  row_count_law pdT pageSameDay sameDayRecords rfl

theorem addIndices_map {α : Type} (f : HistoryRecord → α)
    (hf : ∀ (r : HistoryRecord) (k : Nat), f { r with Index := k } = f r)
    (l : List HistoryRecord) :
    (addIndices l).map f = l.map f :=
  addIndicesAux_map f hf l 0 0

theorem last_balance_aux (pd : String → Option Int) (page : Page)
    (h : List HistoryRecord) (seed : Int)
    (hnb : hasBalanceCol page = false)
    (hok : ParseAccountHistory pd page = Except.ok h)
    (hseed : ParseAccountBalance page = Except.ok seed) :
    ∀ r ∈ h.getLast?, r.Balance = seed := by
  obtain ⟨-, b, hb, hh⟩ := ParseAccountHistory_ok pd page h hok
  rw [hnb] at hb hh
  simp only [Bool.false_eq_true, if_false] at hb
  have hbs : b = seed := by
    rw [hb] at hseed
    exact Except.ok.inj hseed
  rw [hbs] at hh
  subst hh
  intro r hr
  rw [Option.mem_def] at hr
  have h1 : (buildLoop pd false (fieldNamesOf page) (page.rows.drop 1)
      seed).head?.map HistoryRecord.Balance = some r.Balance := by
    calc (buildLoop pd false (fieldNamesOf page) (page.rows.drop 1)
          seed).head?.map HistoryRecord.Balance
        = ((buildLoop pd false (fieldNamesOf page) (page.rows.drop 1)
            seed).map HistoryRecord.Balance).head? :=
          (List.head?_map _ _).symm
      _ = (((buildLoop pd false (fieldNamesOf page) (page.rows.drop 1)
            seed).map HistoryRecord.Balance).reverse).getLast? :=
          (List.getLast?_reverse _).symm
      _ = (((buildLoop pd false (fieldNamesOf page) (page.rows.drop 1)
            seed).reverse).map HistoryRecord.Balance).getLast? := by
          rw [List.map_reverse]
      _ = ((addIndices ((buildLoop pd false (fieldNamesOf page)
            (page.rows.drop 1) seed).reverse)).map
              HistoryRecord.Balance).getLast? := by
          rw [addIndices_map HistoryRecord.Balance fun _ _ => rfl]
      _ = (addIndices ((buildLoop pd false (fieldNamesOf page)
            (page.rows.drop 1) seed).reverse)).getLast?.map
              HistoryRecord.Balance :=
          List.getLast?_map _ _
      _ = some r.Balance := by rw [hr]; rfl
  cases hL : (buildLoop pd false (fieldNamesOf page) (page.rows.drop 1)
      seed).head? with
  | none => rw [hL] at h1; exact absurd h1 (by simp)
  | some r0 =>
    rw [hL] at h1
    have h2 : r0.Balance = r.Balance := by simpa using h1
    rw [← h2]
    exact buildLoop_head_balance pd (fieldNamesOf page) _ _ r0 hL

theorem chain_balance_aux (pd : String → Option Int) (page : Page)
    (h : List HistoryRecord)
    (hnb : hasBalanceCol page = false)
    (hok : ParseAccountHistory pd page = Except.ok h) :
    List.Chain' (fun a c => a.Balance = wrap64 (c.Balance + c.Credit - c.Debit))
      h := by
  obtain ⟨-, b, -, hh⟩ := ParseAccountHistory_ok pd page h hok
  rw [hnb] at hh
  subst hh
  have hchain := buildLoop_chain pd (fieldNamesOf page) (page.rows.drop 1) b
  have h2 : List.Chain'
      (fun x y : Int × Int × Int => y.1 = wrap64 (x.1 + x.2.1 - x.2.2))
      ((buildLoop pd false (fieldNamesOf page) (page.rows.drop 1) b).map
        fun r => (r.Balance, r.Credit, r.Debit)) :=
    (List.chain'_map _).mpr hchain
  have h3 : List.Chain'
      (fun x y : Int × Int × Int => x.1 = wrap64 (y.1 + y.2.1 - y.2.2))
      (((buildLoop pd false (fieldNamesOf page) (page.rows.drop 1) b).map
        fun r => (r.Balance, r.Credit, r.Debit)).reverse) :=
    List.chain'_reverse.mpr h2
  have h4 : (addIndices ((buildLoop pd false (fieldNamesOf page)
      (page.rows.drop 1) b).reverse)).map
        (fun r => (r.Balance, r.Credit, r.Debit)) =
      ((buildLoop pd false (fieldNamesOf page) (page.rows.drop 1) b).map
        fun r => (r.Balance, r.Credit, r.Debit)).reverse := by
    rw [addIndices_map (fun r => (r.Balance, r.Credit, r.Debit))
      (fun _ _ => rfl), List.map_reverse]
  exact (@List.chain'_map (Int × Int × Int) HistoryRecord
    (fun x y : Int × Int × Int => x.1 = wrap64 (y.1 + y.2.1 - y.2.2))
    (fun r => (r.Balance, r.Credit, r.Debit)) _).mp (by rw [h4]; exact h3)

/-- C1 (amended): when the table has no balance column, the code walks the
rows newest-first adding `credit − debit` to the running balance, so in
the ascending output each record's balance equals the 64-bit wrap of its
successor's `balance + credit − debit` (equivalently
`balance[i] = balance[i-1] + debit[i] - credit[i]`), and the seed from
the balance extractor is the balance of the last (most recent) record —
not the predecessor of `balance[0]`. -/
theorem balance_backward_recursion (pd : String → Option Int) (page : Page)
    (h : List HistoryRecord) (seed : Int)
    (hnb : hasBalanceCol page = false)
    (hok : ParseAccountHistory pd page = Except.ok h)
    (hseed : ParseAccountBalance page = Except.ok seed) :
    List.Chain' (fun a c => a.Balance = wrap64 (c.Balance + c.Credit - c.Debit))
      h ∧
    ∀ r ∈ h.getLast?, r.Balance = seed :=
  ⟨chain_balance_aux pd page h hnb hok,
   last_balance_aux pd page h seed hnb hok hseed⟩

/-- Witness for `balance_backward_recursion` at `pageCredits`. -/
theorem balance_backward_recursion_witness :
    List.Chain' (fun a c => a.Balance = wrap64 (c.Balance + c.Credit - c.Debit))
      creditsRecords ∧
    ∀ r ∈ creditsRecords.getLast?, r.Balance = 100 :=
  balance_backward_recursion pdNone pageCredits creditsRecords 100 rfl rfl rfl

/-- C8: when the table has no balance column and the parse succeeds, the
seed balance obtained from the balance extractor is the `Balance` of the
most recent record, the last one of the ascending output. -/
theorem seed_is_last_balance (pd : String → Option Int) (page : Page)
    (h : List HistoryRecord) (seed : Int)
    (hnb : hasBalanceCol page = false)
    (hok : ParseAccountHistory pd page = Except.ok h)
    (hseed : ParseAccountBalance page = Except.ok seed) :
    ∀ r ∈ h.getLast?, r.Balance = seed :=
  last_balance_aux pd page h seed hnb hok hseed

/-- Witness for `seed_is_last_balance` at `pageCredits`: the last record
of `creditsRecords` carries the seed balance 100. -/
theorem seed_is_last_balance_witness :
    ({ Index := 2, Date := 0, Type' := "", Description := "",
       Debit := 0, Credit := 100, Balance := 100 } : HistoryRecord).Balance
      = 100 :=
  seed_is_last_balance pdNone pageCredits creditsRecords 100 rfl rfl rfl
    { Index := 2, Date := 0, Type' := "", Description := "",
      Debit := 0, Credit := 100, Balance := 100 }
    (Option.mem_def.mpr rfl)

/-- C5 (amended): when the parsed dates of the data rows are
non-increasing in source order — the newest-first rendering the code
assumes — the output sequence is non-decreasing by date. -/
theorem output_sorted_of_source_newest_first (pd : String → Option Int)
    (page : Page) (h : List HistoryRecord)
    (hsrc : List.Chain' (fun a b : Int => b ≤ a) (sourceDates pd page))
    (hok : ParseAccountHistory pd page = Except.ok h) :
    List.Chain' (fun a b : Int => a ≤ b) (h.map HistoryRecord.Date) := by
  obtain ⟨-, b, -, hh⟩ := ParseAccountHistory_ok pd page h hok
  subst hh
  rw [addIndices_map HistoryRecord.Date fun _ _ => rfl, List.map_reverse,
    buildLoop_map_date]
  exact List.chain'_reverse.mpr hsrc

/-- Witness for `output_sorted_of_source_newest_first` at `pageSameDay`. -/
theorem output_sorted_of_source_newest_first_witness :
    List.Chain' (fun a b : Int => a ≤ b)
      (sameDayRecords.map HistoryRecord.Date) :=
  output_sorted_of_source_newest_first pdT pageSameDay sameDayRecords
    (by
      have hs : sourceDates pdT pageSameDay = [200, 100] := by decide
      rw [hs]
      exact List.chain'_pair.mpr (by omega))
    rfl

theorem DefaultHandlers_cases (pd : String → Option Int) (f : String)
    (method : HistoryRecord → String → HistoryRecord)
    (hm : DefaultHandlers pd f = some method) :
    (f = "Date" ∧ method = DateFromString pd) ∨
    (f = "Type" ∧ method = TypeFromString) ∨
    (f = "Description" ∧ method = DescriptionFromString) ∨
    (f = "Debit" ∧ method = DebitFromString) ∨
    (f = "Credit" ∧ method = CreditFromString) ∨
    (f = "Account Balance" ∧ method = BalanceFromString) := by
  unfold DefaultHandlers at hm
  split_ifs at hm with h1 h2 h3 h4 h5 h6
  · exact Or.inl ⟨h1, (Option.some.inj hm).symm⟩
  · exact Or.inr (Or.inl ⟨h2, (Option.some.inj hm).symm⟩)
  · exact Or.inr (Or.inr (Or.inl ⟨h3, (Option.some.inj hm).symm⟩))
  · exact Or.inr (Or.inr (Or.inr (Or.inl ⟨h4, (Option.some.inj hm).symm⟩)))
  · exact Or.inr (Or.inr (Or.inr (Or.inr
      (Or.inl ⟨h5, (Option.some.inj hm).symm⟩))))
  · exact Or.inr (Or.inr (Or.inr (Or.inr
      (Or.inr ⟨h6, (Option.some.inj hm).symm⟩))))

theorem method_Debit_preserved (pd : String → Option Int) (f : String)
    (method : HistoryRecord → String → HistoryRecord)
    (hm : DefaultHandlers pd f = some method)
    (rec : HistoryRecord) (v : String)
    (hblank : f = "Debit" → trimSpace v = "") :
    (method rec v).Debit = rec.Debit := by
  rcases DefaultHandlers_cases pd f method hm with
    ⟨hf, rfl⟩ | ⟨hf, rfl⟩ | ⟨hf, rfl⟩ | ⟨hf, rfl⟩ | ⟨hf, rfl⟩ | ⟨hf, rfl⟩
  · unfold DateFromString
    split <;> rfl
  · rfl
  · rfl
  · simp [DebitFromString, hblank hf]
  · unfold CreditFromString
    split
    · rfl
    · split <;> rfl
  · unfold BalanceFromString
    split
    · rfl
    · split <;> rfl

theorem method_Credit_preserved (pd : String → Option Int) (f : String)
    (method : HistoryRecord → String → HistoryRecord)
    (hm : DefaultHandlers pd f = some method)
    (rec : HistoryRecord) (v : String)
    (hblank : f = "Credit" → trimSpace v = "") :
    (method rec v).Credit = rec.Credit := by
  rcases DefaultHandlers_cases pd f method hm with
    ⟨hf, rfl⟩ | ⟨hf, rfl⟩ | ⟨hf, rfl⟩ | ⟨hf, rfl⟩ | ⟨hf, rfl⟩ | ⟨hf, rfl⟩
  · unfold DateFromString
    split <;> rfl
  · rfl
  · rfl
  · unfold DebitFromString
    split
    · rfl
    · split <;> rfl
  · simp [CreditFromString, hblank hf]
  · unfold BalanceFromString
    split
    · rfl
    · split <;> rfl

theorem applyHandlers_Debit (pd : String → Option Int) :
    ∀ (pairs : List (String × String)) (rec : HistoryRecord),
      (∀ p ∈ pairs, p.1 = "Debit" → trimSpace p.2 = "") →
      (applyHandlers pd pairs rec).Debit = rec.Debit := by
  intro pairs
  induction pairs with
  | nil => intro rec hc; rfl
  | cons p rest ih =>
    obtain ⟨f, v⟩ := p
    intro rec hc
    simp only [applyHandlers]
    cases hm : DefaultHandlers pd f with
    | none =>
      show (applyHandlers pd rest rec).Debit = rec.Debit
      exact ih rec fun q hq => hc q (List.mem_cons_of_mem _ hq)
    | some method =>
      show (applyHandlers pd rest (method rec v)).Debit = rec.Debit
      rw [ih (method rec v) fun q hq => hc q (List.mem_cons_of_mem _ hq)]
      exact method_Debit_preserved pd f method hm rec v
        fun hf => hc (f, v) (List.mem_cons_self _ _) hf

theorem applyHandlers_Credit (pd : String → Option Int) :
    ∀ (pairs : List (String × String)) (rec : HistoryRecord),
      (∀ p ∈ pairs, p.1 = "Credit" → trimSpace p.2 = "") →
      (applyHandlers pd pairs rec).Credit = rec.Credit := by
  intro pairs
  induction pairs with
  | nil => intro rec hc; rfl
  | cons p rest ih =>
    obtain ⟨f, v⟩ := p
    intro rec hc
    simp only [applyHandlers]
    cases hm : DefaultHandlers pd f with
    | none =>
      show (applyHandlers pd rest rec).Credit = rec.Credit
      exact ih rec fun q hq => hc q (List.mem_cons_of_mem _ hq)
    | some method =>
      show (applyHandlers pd rest (method rec v)).Credit = rec.Credit
      rw [ih (method rec v) fun q hq => hc q (List.mem_cons_of_mem _ hq)]
      exact method_Credit_preserved pd f method hm rec v
        fun hf => hc (f, v) (List.mem_cons_self _ _) hf

theorem mem_zip_cells {fn row : List String} {p : String × String}
    (hp : p ∈ fn.zip (cellsFor fn.length row)) :
    ∃ j : Nat, j < fn.length ∧ p.1 = fn.getD j "" ∧ p.2 = row.getD j "" := by
  obtain ⟨i, hi, he⟩ := List.mem_iff_getElem.mp hp
  have hclen : (cellsFor fn.length row).length = fn.length := by
    simp [cellsFor]
  have hlen : (fn.zip (cellsFor fn.length row)).length = fn.length := by
    rw [List.length_zip, hclen, min_self]
  rw [hlen] at hi
  refine ⟨i, hi, ?_, ?_⟩
  · rw [← he, List.getElem_zip]
    exact (List.getD_eq_getElem fn "" hi).symm
  · rw [← he, List.getElem_zip]
    simp [cellsFor]

theorem parseRow_Debit (pd : String → Option Int) (fn row : List String)
    (hcell : ∀ j : Nat, j < fn.length → fn.getD j "" = "Debit" →
      trimSpace (row.getD j "") = "") :
    (parseRow pd fn row).Debit = 0 := by
  unfold parseRow
  rw [applyHandlers_Debit]
  · rfl
  intro p hp hf
  obtain ⟨j, hj, h1, h2⟩ := mem_zip_cells hp
  rw [h2]
  exact hcell j hj (by rw [← h1]; exact hf)

theorem parseRow_Credit (pd : String → Option Int) (fn row : List String)
    (hcell : ∀ j : Nat, j < fn.length → fn.getD j "" = "Credit" →
      trimSpace (row.getD j "") = "") :
    (parseRow pd fn row).Credit = 0 := by
  unfold parseRow
  rw [applyHandlers_Credit]
  · rfl
  intro p hp hf
  obtain ⟨j, hj, h1, h2⟩ := mem_zip_cells hp
  rw [h2]
  exact hcell j hj (by rw [← h1]; exact hf)

/-- C9 (amended): every record's `Debit` and `Credit` are integers, and
each is zero when its column is absent from the header or when every
cell of that column in the record's own source row is blank after
trimming; they are not in general non-negative (`parseMoney` accepts a
leading minus, see the counterexample).  The record at ascending output
position `i` was parsed from data row `h.length - 1 - i` (the code
prepends, reversing source order). -/
theorem debit_credit_zero_when_absent_or_blank (pd : String → Option Int)
    (page : Page) (h : List HistoryRecord)
    (hok : ParseAccountHistory pd page = Except.ok h) :
    ∀ i : Nat, i < h.length →
      ((∀ j : Nat, j < (fieldNamesOf page).length →
          (fieldNamesOf page).getD j "" = "Debit" →
          trimSpace (((page.rows.drop 1).getD (h.length - 1 - i) []).getD j "")
            = "") →
        (h.getD i emptyRecord).Debit = 0) ∧
      ((∀ j : Nat, j < (fieldNamesOf page).length →
          (fieldNamesOf page).getD j "" = "Credit" →
          trimSpace (((page.rows.drop 1).getD (h.length - 1 - i) []).getD j "")
            = "") →
        (h.getD i emptyRecord).Credit = 0) := by
  obtain ⟨-, b, -, hh⟩ := ParseAccountHistory_ok pd page h hok
  subst hh
  intro i hi
  have hlen : (addIndices ((buildLoop pd (hasBalanceCol page)
      (fieldNamesOf page) (page.rows.drop 1) b).reverse)).length
      = (page.rows.drop 1).length := by
    unfold addIndices
    rw [addIndicesAux_length, List.length_reverse, buildLoop_length]
  rw [hlen] at hi ⊢
  have hiL : i < (buildLoop pd (hasBalanceCol page) (fieldNamesOf page)
      (page.rows.drop 1) b).length := by
    rw [buildLoop_length]
    exact hi
  have hrev : ((buildLoop pd (hasBalanceCol page) (fieldNamesOf page)
        (page.rows.drop 1) b).reverse).getD i emptyRecord =
      (buildLoop pd (hasBalanceCol page) (fieldNamesOf page)
        (page.rows.drop 1) b).getD ((page.rows.drop 1).length - 1 - i)
        emptyRecord := by
    rw [getD_reverse_emptyRecord _ i hiL, buildLoop_length]
  have hk : (page.rows.drop 1).length - 1 - i < (page.rows.drop 1).length := by
    omega
  constructor
  · intro hcond
    rw [(addIndices_getD_dc _ i).1, hrev,
      (buildLoop_getD_dc pd (hasBalanceCol page) (fieldNamesOf page)
        (page.rows.drop 1) b _ hk).1]
    exact parseRow_Debit pd _ _ hcond
  · intro hcond
    rw [(addIndices_getD_dc _ i).2, hrev,
      (buildLoop_getD_dc pd (hasBalanceCol page) (fieldNamesOf page)
        (page.rows.drop 1) b _ hk).2]
    exact parseRow_Credit pd _ _ hcond

/-- Witness for `debit_credit_zero_when_absent_or_blank` at
`pageBlankCells`, record 0. -/
theorem debit_credit_zero_when_absent_or_blank_witness :
    ((∀ j : Nat, j < (fieldNamesOf pageBlankCells).length →
        (fieldNamesOf pageBlankCells).getD j "" = "Debit" →
        trimSpace (((pageBlankCells.rows.drop 1).getD
          (blankRecords.length - 1 - 0) []).getD j "") = "") →
      (blankRecords.getD 0 emptyRecord).Debit = 0) ∧
    ((∀ j : Nat, j < (fieldNamesOf pageBlankCells).length →
        (fieldNamesOf pageBlankCells).getD j "" = "Credit" →
        trimSpace (((pageBlankCells.rows.drop 1).getD
          (blankRecords.length - 1 - 0) []).getD j "") = "") →
      (blankRecords.getD 0 emptyRecord).Credit = 0) :=
  debit_credit_zero_when_absent_or_blank pdNone pageBlankCells blankRecords
    rfl 0 (by decide)

end TDBank
